import Mathlib

/-!
Verification development for the Chimney Park fast-file processing engine
(`EC_Processing_Engine`).  The Python class `fast_processing_engine` is
shallowly embedded: pandas data frames become association lists of named
columns, timestamps become natural numbers (milliseconds since the epoch),
calendar dates become day ordinals (days since 1970-01-01), and Python
exceptions become an error type threaded through `Except`.
-/

deriving instance DecidableEq for Except

namespace ChimneyPark

/-- Cell values of a data frame.  `nan` is the missing-value sentinel
(`np.nan`); numeric data, timestamps and strings cover the value kinds the
engine manipulates. -/
inductive Val where
  | nan : Val
  | num : ℚ → Val
  | tstamp : Nat → Val
  | str : String → Val
deriving DecidableEq, Repr

/-- A column is the list of its cell values, top to bottom. -/
abbrev Col := List Val

/-- A pandas data frame: an optional named index column (produced by
`set_index`) and the ordered list of named data columns.  Column names may
repeat, exactly as in pandas. -/
structure Frame where
  index : Option (String × Col)
  cols : List (String × Col)
deriving DecidableEq, Repr

/-- Python exceptions raised by the engine's code paths. -/
inductive PyErr where
  | indexError : PyErr
  | valueError : PyErr
  | keyError : PyErr
  | typeError : PyErr
  | unboundLocal : PyErr
deriving DecidableEq, Repr

/-- The five measurement sites configured in `final_headers`. -/
inductive Site where
  | NF17 : Site
  | NF3 : Site
  | SF4 : Site
  | SF7 : Site
  | UF3 : Site
deriving DecidableEq, Repr

/-- Canonical ordered column list per site, copied from the
`final_headers` dictionary in the constructor. -/
def finalHeader : Site → List String
  | .NF17 =>
      ["TIMESTAMP", "RECORD",
       "Ux_CSAT3_NF17", "Uy_CSAT3_NF17", "Uz_CSAT3_NF17", "Ts_CSAT3_NF17",
       "Ux_CSAT3_NF7", "Uy_CSAT3_NF7", "Uz_CSAT3_NF7", "Ts_CSAT3_NF7",
       "CO2_LI7500_NF17", "H2O_LI7500_NF17", "PCELL_LI7500_NF17",
       "TCELL_LI7500_NF17", "DIAG_CSAT3_NF17", "flag_CSAT3_NF17",
       "DIAG_CSAT3_NF7", "flag_CSAT3_NF7", "DIAG_LI7500_NF17"]
  | .NF3 =>
      ["TIMESTAMP", "RECORD",
       "Ux_CSAT3B_NF3", "Uy_CSAT3B_NF3", "Uz_CSAT3B_NF3", "Ts_CSAT3B_NF3",
       "CO2_LI7500_NF3", "H2O_LI7500_NF3", "PCELL_LI7500_NF3",
       "TCELL_LI7500_NF3", "DIAG_CSAT3B_NF3", "flag_CSAT3B_NF3",
       "DIAG_LI7500_NF3"]
  | .SF4 =>
      ["TIMESTAMP", "RECORD",
       "Ux_SON_SF4", "Uy_SON_SF4", "Uz_SON_SF4", "Ts_SON_SF4",
       "CO2_IRGA_SF4", "H2O_IRGA_SF4", "PCELL_IRGA_SF4", "TCELL_IRGA_SF4",
       "DIAG_SON_SF4", "flag_SON_SF4", "DIAG_IRGA_SF4"]
  | .SF7 =>
      ["TIMESTAMP", "RECORD",
       "Ux_CSAT3B_SF7", "Uy_CSAT3B_SF7", "Uz_CSAT3B_SF7", "Ts_CSAT3B_SF7",
       "CO2_LI7500_SF7", "H2O_LI7500_SF7", "PCELL_LI7500_SF7",
       "TCELL_LI7500_SF7", "DIAG_CSAT3B_SF7", "flag_CSAT3B_SF7",
       "DIAG_LI7500_SF7"]
  | .UF3 =>
      ["TIMESTAMP", "RECORD",
       "Ux_SON_UF3", "Uy_SON_UF3", "Uz_SON_UF3", "Ts_SON_UF3",
       "CO2_IRGA_UF3", "H2O_IRGA_UF3", "PCELL_IRGA_UF3", "TCELL_IRGA_UF3",
       "DIAG_SON_UF3", "flag_SON_UF3", "DIAG_IRGA_UF3"]

/-- Run configuration: `file_length` in minutes and `acq_freq` in Hz, as
passed to the constructor. -/
structure Config where
  file_length : Nat
  acq_freq : Nat
deriving DecidableEq, Repr

/-- Acquisition period in milliseconds: `pd.Timedelta(f'{1000//acq_freq} ms')`. -/
def acqPeriod (cfg : Config) : Nat := 1000 / cfg.acq_freq

/-- Expected samples per interval: `self.file_length*self.acq_freq*60`. -/
def n_records (cfg : Config) : Nat := cfg.file_length * cfg.acq_freq * 60

/-- Milliseconds per calendar day. -/
def msPerDay : Nat := 86400000

/-- Calendar date (day ordinal since 1970-01-01) of a millisecond
timestamp; models `fts.date()`. -/
def dateOf (fts : Nat) : Nat := fts / msPerDay

/-- Day ordinal of 2019-05-19 (the maintenance boundary used for NF17, NF3
and SF7): 17897 days reach 2019-01-01 and May 19 is day 139 of 2019. -/
def day20190519 : Nat := 18035

/-- Day ordinal of 2100-11-19 (upper bound of SF4's single rule). -/
def day21001119 : Nat := 47804

/-- Day ordinal of 2019-02-13 (lower bound of UF3's single rule). -/
def day20190213 : Nat := 17940

/-- Names of a frame's data columns, in order. -/
def colNames (df : Frame) : List String := df.cols.map Prod.fst

/-- First column with the given label, as pandas label lookup on a frame
whose labels are unique. -/
def lookupCol (cols : List (String × Col)) (n : String) : Option Col :=
  (cols.find? (fun pc => pc.1 == n)).map Prod.snd

/-- Row count of a frame (length of its first column, or of the index when
no data columns exist). -/
def nrows (df : Frame) : Nat :=
  match df.cols with
  | [] => match df.index with
          | some pc => pc.2.length
          | none => 0
  | pc :: _ => pc.2.length

/-- Column a reindex assigns to label `n`: the existing column when the
label is present, otherwise a sentinel-filled column. -/
def reindexedCol (df : Frame) (n : String) : Col :=
  (lookupCol df.cols n).getD (List.replicate (nrows df) Val.nan)

/-- Reindex over a frame whose column labels are unique (the only case in
which pandas performs the operation): the output has exactly the requested
labels in the requested order; labels found in `df` keep their values,
absent labels are filled with the missing sentinel.  A repeated REQUESTED
label duplicates the column, as in pandas. -/
def reindexColsU (df : Frame) (names : List String) : Frame :=
  ⟨df.index, names.map (fun n => (n, reindexedCol df n))⟩

/-- Models `df.reindex(columns=names, fill_value=np.nan)`: pandas raises
`ValueError` ("cannot reindex from a duplicate axis") when the SOURCE
frame's column labels repeat, and otherwise reindexes as in
`reindexColsU`. -/
def reindexCols (df : Frame) (names : List String) : Except PyErr Frame :=
  if (colNames df).Nodup then .ok (reindexColsU df names)
  else .error .valueError

/-- Name translation of `df.rename(columns=m)`: a name that is a key of the
mapping becomes its image, others are unchanged. -/
def applyRename (m : List (String × String)) (n : String) : String :=
  match m.find? (fun p => p.1 == n) with
  | some p => p.2
  | none => n

/-- Models `df.rename(columns=m)`. -/
def renameCols (df : Frame) (m : List (String × String)) : Frame :=
  ⟨df.index, df.cols.map (fun pc => (applyRename m pc.1, pc.2))⟩

/-- Presence test performed by pandas label selection. -/
def allPresent (df : Frame) (names : List String) : Bool :=
  names.all (fun n => df.cols.any (fun pc => pc.1 == n))

/-- Models column selection `df[names]` (pandas 1.x): raises `KeyError`
when any requested label is absent; otherwise returns, for each requested
label in order, every column of `df` carrying that label. -/
def selectCols (df : Frame) (names : List String) : Except PyErr Frame :=
  if allPresent df names then
    .ok ⟨df.index, names.flatMap (fun n => df.cols.filter (fun pc => pc.1 == n))⟩
  else
    .error .keyError

/-- Models `make_empty`: a two-row frame whose `TIMESTAMP` entries are the
interval start plus one acquisition period and 100 ms later (the `100ms`
frequency is hard-coded in the source), reindexed to the site's canonical
header with the sentinel and with `TIMESTAMP` made the index.  The reindex
source here is a fresh single-column frame, so its duplicate-axis error
path is unreachable and the `getD` default is never taken. -/
def make_empty (cfg : Config) (fts : Nat) (site : Site) : Frame :=
  let tss : Col := [Val.tstamp (fts + acqPeriod cfg),
                    Val.tstamp (fts + acqPeriod cfg + 100)]
  let re := (reindexCols ⟨none, [("TIMESTAMP", tss)]⟩
      (finalHeader site)).toOption.getD ⟨none, []⟩
  ⟨(lookupCol re.cols "TIMESTAMP").map (fun c => ("TIMESTAMP", c)),
   re.cols.filter (fun pc => pc.1 != "TIMESTAMP")⟩

/-- A date-range harmonization rule: columns to add and the renaming map,
as written in `reorder_headers`. -/
structure Rule where
  colsToAdd : List String
  renameMap : List (String × String)
deriving DecidableEq, Repr

/-- Outcome of the date dispatch inside `reorder_headers`: a normal rule, a
maintenance day, or a fall-through leaving `cols_to_add` unbound. -/
inductive RuleResult where
  | normal : Rule → RuleResult
  | maintenance : RuleResult
  | unbound : RuleResult
deriving DecidableEq, Repr

/-- NF17 rule for dates before 2019-05-19. -/
def nf17pre : Rule :=
  ⟨["PCELL_LI7500_NF17", "DIAG_CSAT3_NF17", "DIAG_CSAT3_NF7",
    "flag_CSAT3_NF17", "flag_CSAT3_NF7", "TCELL_LI7500_NF17"],
   [("Ux_CSAT3_17m", "Ux_CSAT3_NF17"), ("Uy_CSAT3_17m", "Uy_CSAT3_NF17"),
    ("Uz_CSAT3_17m", "Uz_CSAT3_NF17"), ("Ts_CSAT3_17m", "Ts_CSAT3_NF17"),
    ("Ux_CSAT3_7m", "Ux_CSAT3_NF7"), ("Uy_CSAT3_7m", "Uy_CSAT3_NF7"),
    ("Uz_CSAT3_7m", "Uz_CSAT3_NF7"), ("Ts_CSAT3_7m", "Ts_CSAT3_NF7"),
    ("rho_c_LI7500", "CO2_LI7500_NF17"), ("rho_v_LI7500", "H2O_LI7500_NF17"),
    ("DIAG_LI7500", "DIAG_LI7500_NF17")]⟩

/-- NF17 rule for dates after 2019-05-19. -/
def nf17post : Rule :=
  ⟨["DIAG_CSAT3_NF17", "DIAG_CSAT3_NF7", "flag_CSAT3_NF17",
    "flag_CSAT3_NF7", "TCELL_LI7500_NF17"],
   [("Ux_CSAT3_17m", "Ux_CSAT3_NF17"), ("Uy_CSAT3_17m", "Uy_CSAT3_NF17"),
    ("Uz_CSAT3_17m", "Uz_CSAT3_NF17"), ("Ts_CSAT3_17m", "Ts_CSAT3_NF17"),
    ("Ux_CSAT3_7m", "Ux_CSAT3_NF7"), ("Uy_CSAT3_7m", "Uy_CSAT3_NF7"),
    ("Uz_CSAT3_7m", "Uz_CSAT3_NF7"), ("Ts_CSAT3_7m", "Ts_CSAT3_NF7"),
    ("rho_c_LI7500", "CO2_LI7500_NF17"), ("rho_v_LI7500", "H2O_LI7500_NF17"),
    ("P_LI7500", "PCELL_LI7500_NF17"), ("DIAG_LI7500", "DIAG_LI7500_NF17")]⟩

/-- NF3 rule for dates before 2019-05-19. -/
def nf3pre : Rule :=
  ⟨["PCELL_LI7500_NF3", "TCELL_LI7500_NF3", "flag_CSAT3B_NF3"],
   [("Ux_CSAT3B", "Ux_CSAT3B_NF3"), ("Uy_CSAT3B", "Uy_CSAT3B_NF3"),
    ("Uz_CSAT3B", "Uz_CSAT3B_NF3"), ("Ts_CSAT3B", "Ts_CSAT3B_NF3"),
    ("rho_c_LI7500", "CO2_LI7500_NF3"), ("rho_cv_LI7500", "H2O_LI7500_NF3"),
    ("DIAG_CSAT3B", "DIAG_CSAT3B_NF3"), ("DIAG_LI7500", "DIAG_LI7500_NF3")]⟩

/-- NF3 rule for dates after 2019-05-19. -/
def nf3post : Rule :=
  ⟨["DIAG_CSAT3B_NF3", "flag_CSAT3B_NF3", "TCELL_LI7500_NF3"],
   [("Ux_CSAT3B", "Ux_CSAT3B_NF3"), ("Uy_CSAT3B", "Uy_CSAT3B_NF3"),
    ("Uz_CSAT3B", "Uz_CSAT3B_NF3"), ("Ts_CSAT3B", "Ts_CSAT3B_NF3"),
    ("rho_c_LI7500", "CO2_LI7500_NF3"), ("rho_v_LI7500", "H2O_LI7500_NF3"),
    ("P_LI7500", "PCELL_LI7500_NF3"), ("DIAG_LI7500", "DIAG_LI7500_NF3")]⟩

/-- SF4's single rule (dates before 2100-11-19). -/
def sf4rule : Rule :=
  ⟨["flag_SON_SF4"],
   [("Ux", "Ux_SON_SF4"), ("Uy", "Uy_SON_SF4"), ("Uz", "Uz_SON_SF4"),
    ("Ts", "Ts_SON_SF4"), ("diag_sonic", "DIAG_SON_SF4"),
    ("CO2", "CO2_IRGA_SF4"), ("H2O", "H2O_IRGA_SF4"),
    ("diag_irga", "DIAG_IRGA_SF4"), ("cell_tmpr", "TCELL_IRGA_SF4"),
    ("cell_press", "PCELL_IRGA_SF4")]⟩

/-- SF7 rule for dates before 2019-05-19. -/
def sf7pre : Rule :=
  ⟨["PCELL_LI7500_SF7", "TCELL_LI7500_SF7", "flag_CSAT3B_SF7"],
   [("Ux_CSAT3B", "Ux_CSAT3B_SF7"), ("Uy_CSAT3B", "Uy_CSAT3B_SF7"),
    ("Uz_CSAT3B", "Uz_CSAT3B_SF7"), ("Ts_CSAT3B", "Ts_CSAT3B_SF7"),
    ("rho_c_LI7500", "CO2_LI7500_SF7"), ("rho_v_LI7500", "H2O_LI7500_SF7"),
    ("DIAG_CSAT3B", "DIAG_CSAT3B_SF7"), ("DIAG_LI7500", "DIAG_LI7500_SF7")]⟩

/-- SF7 rule for dates after 2019-05-19. -/
def sf7post : Rule :=
  ⟨["DIAG_CSAT3B_SF7", "flag_CSAT3B_SF7", "TCELL_LI7500_SF7"],
   [("Ux_CSAT3B", "Ux_CSAT3B_SF7"), ("Uy_CSAT3B", "Uy_CSAT3B_SF7"),
    ("Uz_CSAT3B", "Uz_CSAT3B_SF7"), ("Ts_CSAT3B", "Ts_CSAT3B_SF7"),
    ("rho_c_LI7500", "CO2_LI7500_SF7"), ("rho_v_LI7500", "H2O_LI7500_SF7"),
    ("P_LI7500", "PCELL_LI7500_SF7"), ("DIAG_LI7500", "DIAG_LI7500_SF7")]⟩

/-- UF3's single rule (dates after 2019-02-13). -/
def uf3rule : Rule :=
  ⟨["flag_SON_UF3"],
   [("Ux", "Ux_SON_UF3"), ("Uy", "Uy_SON_UF3"), ("Uz", "Uz_SON_UF3"),
    ("Ts", "Ts_SON_UF3"), ("diag_sonic", "DIAG_SON_UF3"),
    ("CO2", "CO2_IRGA_UF3"), ("H2O", "H2O_IRGA_UF3"),
    ("diag_irga", "DIAG_IRGA_UF3"), ("cell_tmpr", "TCELL_IRGA_UF3"),
    ("cell_press", "PCELL_IRGA_UF3")]⟩

/-- Date dispatch of `reorder_headers`, mirroring its `if`/`elif` chains
(date comparisons use the pandas 1.x conversion of `datetime.date` to a
midnight `Timestamp`).  A chain that falls through leaves the local
variables `cols_to_add`/`renaming_dict` unbound. -/
def ruleFor (site : Site) (d : Nat) : RuleResult :=
  match site with
  | .NF17 =>
      if d < day20190519 then .normal nf17pre
      else if d > day20190519 then .normal nf17post
      else if d = day20190519 then .maintenance
      else .unbound
  | .NF3 =>
      if d < day20190519 then .normal nf3pre
      else if d > day20190519 then .normal nf3post
      else if d = day20190519 then .maintenance
      else .unbound
  | .SF4 =>
      if d < day21001119 then .normal sf4rule
      else .unbound
  | .SF7 =>
      if d < day20190519 then .normal sf7pre
      else if d > day20190519 then .normal sf7post
      else if d = day20190519 then .maintenance
      else .unbound
  | .UF3 =>
      if d > day20190213 then .normal uf3rule
      else .unbound

/-- Models `reorder_headers(site, fts, df)`: select the date rule; a
maintenance day discards the input and returns `make_empty`; otherwise add
the rule's columns (`reindex` to the current labels plus `cols_to_add`,
which raises `ValueError` when the input frame's labels repeat), apply the
renaming, and select the canonical header with `df[new_order]`.  A
fall-through of the date chain raises `UnboundLocalError`. -/
def reorder_headers (cfg : Config) (site : Site) (fts : Nat) (df : Frame) :
    Except PyErr Frame :=
  match ruleFor site (dateOf fts) with
  | .maintenance => .ok (make_empty cfg fts site)
  | .unbound => .error .unboundLocal
  | .normal r =>
      match reindexCols df (colNames df ++ r.colsToAdd) with
      | .error e => .error e
      | .ok df1 => selectCols (renameCols df1 r.renameMap) (finalHeader site)

/-- CLAIM C4: for NF17, NF3 and SF7, a reference timestamp whose calendar
date is exactly 2019-05-19 makes `reorder_headers` discard the input and
return the two-row sentinel-filled placeholder, whatever the input frame
contains. -/
theorem c4_maintenance_boundary (cfg : Config) (site : Site) (fts : Nat)
    (df : Frame)
    (hsite : site = Site.NF17 ∨ site = Site.NF3 ∨ site = Site.SF7)
    (hdate : dateOf fts = day20190519) :
    reorder_headers cfg site fts df = .ok (make_empty cfg fts site) ∧
      (make_empty cfg fts site).cols =
        ((finalHeader site).drop 1).map (fun n => (n, [Val.nan, Val.nan])) ∧
      (make_empty cfg fts site).index =
        some ("TIMESTAMP", [Val.tstamp (fts + acqPeriod cfg),
                            Val.tstamp (fts + acqPeriod cfg + 100)]) := by
  rcases hsite with h | h | h <;> subst h <;>
    refine ⟨?_, ?_, ?_⟩ <;>
    simp [reorder_headers, ruleFor, hdate, make_empty, reindexCols,
      reindexColsU, reindexedCol, lookupCol, nrows, finalHeader, colNames,
      List.nodup_cons, Except.toOption, Option.getD]

/-- Witness for C4 at a concrete input: 2019-05-19 00:00 for site NF3 with
an arbitrary nonempty frame. -/
theorem c4_maintenance_boundary_witness :
    dateOf (18035 * 86400000) = day20190519 ∧
      reorder_headers ⟨5, 10⟩ Site.NF3 (18035 * 86400000)
          ⟨none, [("junk", [Val.num 7])]⟩ =
        .ok (make_empty ⟨5, 10⟩ (18035 * 86400000) Site.NF3) :=
  ⟨by decide,
   (c4_maintenance_boundary ⟨5, 10⟩ Site.NF3 (18035 * 86400000)
      ⟨none, [("junk", [Val.num 7])]⟩ (Or.inr (Or.inl rfl)) (by decide)).1⟩

/-! ### String utilities

Python string splitting, modelled over `List Char` with a fuel argument so
that every definition reduces inside the kernel. -/

/-- Auxiliary splitter: splits `cs` at every non-overlapping occurrence of
`sep` (leftmost first), like Python's `str.split(sep)`.  `fuel` bounds the
recursion and is always called with more fuel than characters. -/
def splitOnFuel (sep : List Char) : Nat → List Char → List (List Char)
  | 0, cs => [cs]
  | _ + 1, [] => [[]]
  | fuel + 1, c :: rest =>
      if sep.isPrefixOf (c :: rest) then
        [] :: splitOnFuel sep fuel (List.drop (sep.length - 1) rest)
      else
        match splitOnFuel sep fuel rest with
        | [] => [[c]]
        | h :: t => (c :: h) :: t

/-- Python `s.split(sep)` for a nonempty separator. -/
def pySplit (sep : String) (s : String) : List String :=
  (splitOnFuel sep.toList (s.toList.length + 1) s.toList).map String.mk

/-- Python list slice `l[1:-1]`: drop the first and the last element. -/
def pySlice1m1 (l : List α) : List α := (l.drop 1).dropLast

/-- Python string slice `s[1:-1]`. -/
def pyStrSlice1m1 (s : String) : String := String.mk (pySlice1m1 s.toList)

/-- Python list subscript `l[i]`, raising `IndexError` out of range. -/
def pyIndex (l : List α) (i : Nat) : Except PyErr α :=
  match l.drop i with
  | [] => .error .indexError
  | a :: _ => .ok a

/-- Models `re.split("_|\.", s)`: split at every underscore or dot,
keeping empty segments. -/
def splitSeps : List Char → List (List Char)
  | [] => [[]]
  | c :: rest =>
      let r := splitSeps rest
      if c = '_' ∨ c = '.' then [] :: r
      else
        match r with
        | [] => [[c]]
        | h :: t => (c :: h) :: t

/-- Models `Path(fn).name`: the part after the last slash. -/
def pathName (fn : String) : String := (pySplit "/" fn).getLastD ""

/-! ### File Index: timestamp extraction (`get_timestamp_from_fn`) -/

/-- Parsed `%Y%m%d%H%M` timestamp fields. -/
structure DateParts where
  year : Nat
  month : Nat
  day : Nat
  hour : Nat
  minute : Nat
deriving DecidableEq, Repr

/-- Gregorian leap-year test. -/
def isLeap (y : Nat) : Bool := (y % 4 == 0 && y % 100 != 0) || (y % 400 == 0)

/-- Days in a month. -/
def daysInMonth (y mo : Nat) : Nat :=
  if mo = 2 then (if isLeap y then 29 else 28)
  else if mo = 4 ∨ mo = 6 ∨ mo = 9 ∨ mo = 11 then 30
  else 31

/-- Numeric value of an ASCII digit. -/
def digitVal (c : Char) : Nat := c.toNat - 48

/-- Ordered-choice matcher for one strptime field: try the pattern's
alternatives in regex alternation order, backtracking into an earlier
field's later alternatives only when the rest of the pattern cannot match
at all — exactly the compiled `TimeRE` regex's behaviour. -/
def tryAlts {α : Type} (alts : List (List Char → Option (Nat × List Char)))
    (cs : List Char) (k : Nat → List Char → Option α) : Option α :=
  match alts with
  | [] => none
  | a :: rest =>
      match a cs with
      | some (v, cs') =>
          match k v cs' with
          | some res => some res
          | none => tryAlts rest cs k
      | none => tryAlts rest cs k

/-- `%Y` of `TimeRE`: exactly four digits (`\d\d\d\d`). -/
def altsYear : List (List Char → Option (Nat × List Char)) :=
  [fun cs =>
    match cs with
    | a :: b :: c :: d :: rest =>
        if a.isDigit ∧ b.isDigit ∧ c.isDigit ∧ d.isDigit then
          some (((digitVal a * 10 + digitVal b) * 10 + digitVal c) * 10 +
            digitVal d, rest)
        else none
    | _ => none]

/-- `%m` of `TimeRE`: `1[0-2]|0[1-9]|[1-9]`. -/
def altsMonth : List (List Char → Option (Nat × List Char)) :=
  [fun cs =>
    match cs with
    | a :: b :: rest =>
        if a = '1' ∧ '0' ≤ b ∧ b ≤ '2' then some (10 + digitVal b, rest)
        else none
    | _ => none,
   fun cs =>
    match cs with
    | a :: b :: rest =>
        if a = '0' ∧ '1' ≤ b ∧ b ≤ '9' then some (digitVal b, rest)
        else none
    | _ => none,
   fun cs =>
    match cs with
    | a :: rest =>
        if '1' ≤ a ∧ a ≤ '9' then some (digitVal a, rest) else none
    | _ => none]

/-- `%d` of `TimeRE`: `3[01]|[12]\d|0[1-9]|[1-9]| [1-9]`. -/
def altsDay : List (List Char → Option (Nat × List Char)) :=
  [fun cs =>
    match cs with
    | a :: b :: rest =>
        if a = '3' ∧ (b = '0' ∨ b = '1') then some (30 + digitVal b, rest)
        else none
    | _ => none,
   fun cs =>
    match cs with
    | a :: b :: rest =>
        if (a = '1' ∨ a = '2') ∧ b.isDigit then
          some (10 * digitVal a + digitVal b, rest)
        else none
    | _ => none,
   fun cs =>
    match cs with
    | a :: b :: rest =>
        if a = '0' ∧ '1' ≤ b ∧ b ≤ '9' then some (digitVal b, rest)
        else none
    | _ => none,
   fun cs =>
    match cs with
    | a :: rest =>
        if '1' ≤ a ∧ a ≤ '9' then some (digitVal a, rest) else none
    | _ => none,
   fun cs =>
    match cs with
    | a :: b :: rest =>
        if a = ' ' ∧ '1' ≤ b ∧ b ≤ '9' then some (digitVal b, rest)
        else none
    | _ => none]

/-- `%H` of `TimeRE`: `2[0-3]|[0-1]\d|\d`. -/
def altsHour : List (List Char → Option (Nat × List Char)) :=
  [fun cs =>
    match cs with
    | a :: b :: rest =>
        if a = '2' ∧ '0' ≤ b ∧ b ≤ '3' then some (20 + digitVal b, rest)
        else none
    | _ => none,
   fun cs =>
    match cs with
    | a :: b :: rest =>
        if (a = '0' ∨ a = '1') ∧ b.isDigit then
          some (10 * digitVal a + digitVal b, rest)
        else none
    | _ => none,
   fun cs =>
    match cs with
    | a :: rest => if a.isDigit then some (digitVal a, rest) else none
    | _ => none]

/-- `%M` of `TimeRE`: `[0-5]\d|\d`. -/
def altsMinute : List (List Char → Option (Nat × List Char)) :=
  [fun cs =>
    match cs with
    | a :: b :: rest =>
        if '0' ≤ a ∧ a ≤ '5' ∧ b.isDigit then
          some (10 * digitVal a + digitVal b, rest)
        else none
    | _ => none,
   fun cs =>
    match cs with
    | a :: rest => if a.isDigit then some (digitVal a, rest) else none
    | _ => none]

/-- The prefix match of the compiled `%Y%m%d%H%M` regex on `cs`: the
five fields in sequence with the `TimeRE` alternations, yielding the
matched field values and the unconsumed remainder. -/
def strptimeMatchYmdHM (cs : List Char) :
    Option ((Nat × Nat × Nat × Nat × Nat) × List Char) :=
  tryAlts altsYear cs (fun y r1 =>
    tryAlts altsMonth r1 (fun mo r2 =>
      tryAlts altsDay r2 (fun d r3 =>
        tryAlts altsHour r3 (fun h r4 =>
          tryAlts altsMinute r4 (fun mi r5 =>
            some ((y, mo, d, h, mi), r5))))))

/-- Models `pd.to_datetime(s, format="%Y%m%d%H%M")`, which runs the
CPython/pandas `strptime` machinery: the `TimeRE` regex must match a
prefix of the string (`%m`/`%d`/`%H`/`%M` accept one- or two-digit
fields), the match must consume the whole string ("unconverted data
remains" otherwise), and the matched fields must form a valid calendar
datetime inside the nanosecond `Timestamp` range
(1677-09-21 00:13 .. 2262-04-11 23:47 at minute resolution); every
failure raises `ValueError` (returns `none`). -/
def parseYYYYMMDDHHMM (s : String) : Option DateParts :=
  match strptimeMatchYmdHM s.toList with
  | none => none
  | some ((y, mo, d, h, mi), rest) =>
      if rest = [] then
        if 1 ≤ y ∧ d ≤ daysInMonth y mo ∧
            167709210013 ≤ (((y * 100 + mo) * 100 + d) * 100 + h) * 100 + mi ∧
            (((y * 100 + mo) * 100 + d) * 100 + h) * 100 + mi ≤ 226204112347
          then some ⟨y, mo, d, h, mi⟩
        else none
      else none

/-- Models `get_timestamp_from_fn`: take the name segment after `'Hz'`
(`split('Hz')[1]`, an `IndexError` when the marker is absent), split it at
underscores and dots, join the middle segments and parse them as
`YYYYMMDDHHMM` (a `ValueError` when unparseable).  No exception type named
`FilenameFormatError` exists anywhere in the source. -/
def get_timestamp_from_fn (fn : String) : Except PyErr DateParts :=
  match pyIndex (pySplit "Hz" (pathName fn)) 1 with
  | .error e => .error e
  | .ok file_id =>
      match parseYYYYMMDDHHMM
          (String.mk (pySlice1m1 (splitSeps file_id.toList)).flatten) with
      | some t => .ok t
      | none => .error .valueError

/-- CLAIM C6 (amended): timestamp extraction on a file name that does not
follow the convention fails, but with `IndexError` (no `'Hz'` marker) or
`ValueError` (timestamp segment does not parse), not with a
`FilenameFormatError`, which the code never defines. -/
theorem c6_extraction_raises (fn : String) :
    ((pySplit "Hz" (pathName fn)).length = 1 →
      get_timestamp_from_fn fn = .error .indexError) ∧
    (∀ fid, pyIndex (pySplit "Hz" (pathName fn)) 1 = .ok fid →
      parseYYYYMMDDHHMM (String.mk (pySlice1m1 (splitSeps fid.toList)).flatten)
          = none →
      get_timestamp_from_fn fn = .error .valueError) := by
  constructor
  · intro h1
    have hbind : pyIndex (pySplit "Hz" (pathName fn)) 1 =
        .error PyErr.indexError := by
      match hsplit : pySplit "Hz" (pathName fn) with
      | [] => rw [hsplit] at h1; simp at h1
      | [a] => rfl
      | a :: b :: t => rw [hsplit] at h1; simp at h1
    simp [get_timestamp_from_fn, hbind]
  · intro fid hok hparse
    have hparse2 : parseYYYYMMDDHHMM
        { data := (pySlice1m1 (splitSeps fid.data)).flatten } = none := hparse
    simp [get_timestamp_from_fn, hok, hparse2]

/-- Witness for C6: a name with no `'Hz'` marker raises `IndexError`, and
a name whose timestamp segment is not twelve digits raises `ValueError`. -/
theorem c6_extraction_raises_witness :
    get_timestamp_from_fn "TOA5_badname.dat" = .error .indexError ∧
      get_timestamp_from_fn "TOA5_NF3_10Hz_2019.dat" = .error .valueError :=
  ⟨(c6_extraction_raises "TOA5_badname.dat").1 (by decide),
   (c6_extraction_raises "TOA5_NF3_10Hz_2019.dat").2 "_2019.dat"
     (by decide) (by decide)⟩

/-- Counterexample for C6 as stated: on an unparseable name the code
raises a plain `IndexError`; there is no `FilenameFormatError` to raise
(the error type of the embedding enumerates every exception the code can
produce, and no such constructor exists). -/
theorem c6_no_filename_format_error :
    get_timestamp_from_fn "TOA5_nosuffix.dat" = .error PyErr.indexError := by
  decide

/-- Fidelity check of the strptime model (not tied to a claim): a
standard twelve-digit name parses, and so does a name with a one-digit
month segment, whose joined digits `"20195190000"` the variable-width
`%m`/`%d`/`%H`/`%M` fields still match (month 5, day 19). -/
theorem get_timestamp_from_fn_wellformed :
    get_timestamp_from_fn "TOA5_NF3_10Hz_2019_05_19_0030.dat" =
      .ok ⟨2019, 5, 19, 0, 30⟩ ∧
    get_timestamp_from_fn "TOA5_NF3_10Hz_2019_5_19_0000.dat" =
      .ok ⟨2019, 5, 19, 0, 0⟩ := by
  refine ⟨by decide, by decide⟩

/-! ### Summary Aggregator: site axis and the NF7 layer -/

/-- Models the dict comprehension `{site: i for i, site in enumerate(...)}`
starting from index `i`. -/
def summarySitesBase : List String → Nat → List (String × Nat)
  | [], _ => []
  | s :: rest, i => (s, i) :: summarySitesBase rest (i + 1)

/-- Models `max(summary_sites.values())` (with 0 for the empty dict the
Python call never sees). -/
def maxValues (d : List (String × Nat)) : Nat := (d.map Prod.snd).foldl max 0

/-- Models Python dict assignment `d[k] = v`. -/
def dictSet (d : List (String × Nat)) (k : String) (v : Nat) :
    List (String × Nat) :=
  if d.any (fun p => p.1 == k) then
    d.map (fun p => if p.1 == k then (k, v) else p)
  else d ++ [(k, v)]

/-- Models the summary-site construction in `process_fast_files`:
`summary_sites = {site:i ...}` followed by the NF17 edge case
`summary_sites['NF7'] = max(summary_sites.values()) + 1`. -/
def summary_sites (sites : List String) : List (String × Nat) :=
  let base := summarySitesBase sites 0
  if base.any (fun p => p.1 == "NF17") then
    dictSet base "NF7" (maxValues base + 1)
  else base

/-- Models `colname.split('_')[-1]`, the site key used by
`update_summary` to address the summary array. -/
def siteKeyOfCol (colname : String) : String :=
  (pySplit "_" colname).getLastD ""

/-- Site index `summary_sites[colname.split('_')[-1]]` used by
`update_summary` when storing a column's statistics. -/
def summarySiteIndexFor (sites : List String) (colname : String) :
    Option Nat :=
  ((summary_sites sites).find? (fun p => p.1 == siteKeyOfCol colname)).map
    Prod.snd

theorem summarySitesBase_map_fst (sites : List String) (i : Nat) :
    (summarySitesBase sites i).map Prod.fst = sites := by
  induction sites generalizing i with
  | nil => rfl
  | cons s rest ih => simp [summarySitesBase, ih]

theorem summarySitesBase_foldl_max (sites : List String) (i a : Nat)
    (h : sites ≠ []) :
    ((summarySitesBase sites i).map Prod.snd).foldl max a =
      max a (i + sites.length - 1) := by
  induction sites generalizing i a with
  | nil => exact absurd rfl h
  | cons s rest ih =>
      rcases eq_or_ne rest [] with hr | hr
      · subst hr; simp [summarySitesBase]
      · simp only [summarySitesBase, List.map_cons, List.foldl_cons,
          ih (i + 1) (max a i) hr, List.length_cons]
        omega

theorem summarySitesBase_any (sites : List String) (i : Nat) (k : String) :
    (summarySitesBase sites i).any (fun p => p.1 == k) =
      sites.any (fun s => s == k) := by
  induction sites generalizing i with
  | nil => rfl
  | cons s rest ih => simp [summarySitesBase, ih, List.any_cons]

theorem summarySitesBase_find?_eq_none (sites : List String) (i : Nat)
    (k : String) (h : k ∉ sites) :
    (summarySitesBase sites i).find? (fun p => p.1 == k) = none := by
  induction sites generalizing i with
  | nil => rfl
  | cons s rest ih =>
      have hs : s ≠ k := fun hsk => h (hsk ▸ List.mem_cons_self s rest)
      show List.find? (fun p => p.1 == k) ((s, i) :: summarySitesBase rest (i + 1)) = none
      rw [List.find?_cons_of_neg _ (by simp [hs])]
      exact ih _ (fun hk => h (List.mem_cons_of_mem _ hk))

/-- CLAIM C10: with `'NF17'` among the configured sites the summary site
axis is the configured list plus one extra layer `'NF7'`, and statistics of
columns whose trailing suffix is `NF7` are addressed to that extra layer's
index; without `'NF17'` the axis is exactly the configured list. -/
theorem c10_summary_nf7_layer (sites : List String) (hnd : sites.Nodup)
    (hnf7 : "NF7" ∉ sites) :
    ("NF17" ∈ sites →
        (summary_sites sites).map Prod.fst = sites ++ ["NF7"] ∧
        ∀ c ∈ ["Ux_CSAT3_NF7", "Uy_CSAT3_NF7", "Uz_CSAT3_NF7",
               "Ts_CSAT3_NF7"],
          summarySiteIndexFor sites c = some sites.length) ∧
    ("NF17" ∉ sites → (summary_sites sites).map Prod.fst = sites) := by
  have hany : ∀ k : String,
      (summarySitesBase sites 0).any (fun p => p.1 == k) = sites.any (fun s => s == k) :=
    fun k => summarySitesBase_any sites 0 k
  constructor
  · intro hmem
    have hne : sites ≠ [] := List.ne_nil_of_mem hmem
    have hanyT : (summarySitesBase sites 0).any (fun p => p.1 == "NF17") = true := by
      rw [hany, List.any_eq_true]
      exact ⟨"NF17", hmem, by simp⟩
    have hanyF : (summarySitesBase sites 0).any (fun p => p.1 == "NF7") = false := by
      rw [hany, List.any_eq_false]
      intro x hx hxk
      exact hnf7 ((beq_iff_eq.mp hxk) ▸ hx)
    have hmax : maxValues (summarySitesBase sites 0) + 1 = sites.length := by
      have hlen : 1 ≤ sites.length := List.length_pos.mpr hne
      unfold maxValues
      rw [summarySitesBase_foldl_max sites 0 0 hne]
      omega
    have hform : summary_sites sites =
        summarySitesBase sites 0 ++ [("NF7", sites.length)] := by
      unfold summary_sites dictSet
      rw [if_pos hanyT, if_neg (by rw [hanyF]; exact Bool.false_ne_true), hmax]
    constructor
    · rw [hform]; simp [summarySitesBase_map_fst]
    · intro c hc
      have hkey : siteKeyOfCol c = "NF7" := by
        fin_cases hc <;> decide
      unfold summarySiteIndexFor
      rw [hkey, hform, List.find?_append,
        summarySitesBase_find?_eq_none sites 0 "NF7" hnf7]
      simp
  · intro hmem
    have hanyF : (summarySitesBase sites 0).any (fun p => p.1 == "NF17") = false := by
      rw [hany, List.any_eq_false]
      intro x hx hxk
      exact hmem ((beq_iff_eq.mp hxk) ▸ hx)
    unfold summary_sites
    rw [if_neg (by rw [hanyF]; exact Bool.false_ne_true)]
    exact summarySitesBase_map_fst sites 0

/-- Witness for C10 at the concrete configuration `["NF17", "NF3"]` and at
`["NF3"]`. -/
theorem c10_summary_nf7_layer_witness :
    ((summary_sites ["NF17", "NF3"]).map Prod.fst = ["NF17", "NF3", "NF7"] ∧
      summarySiteIndexFor ["NF17", "NF3"] "Ux_CSAT3_NF7" = some 2) ∧
    (summary_sites ["NF3"]).map Prod.fst = ["NF3"] :=
  ⟨⟨((c10_summary_nf7_layer ["NF17", "NF3"] (by decide) (by decide)).1
        (by decide)).1,
    ((c10_summary_nf7_layer ["NF17", "NF3"] (by decide) (by decide)).1
        (by decide)).2 "Ux_CSAT3_NF7" (by decide)⟩,
   (c10_summary_nf7_layer ["NF3"] (by decide) (by decide)).2 (by decide)⟩

/-! ### Summary Aggregator: the missing-percentage statistic -/

/-- Models `np.nansum(0*dat[colname] + 1)`: the number of non-missing
entries of a column. -/
def nonMissingCount (c : Col) : Nat := c.countP (fun v => v != Val.nan)

/-- Models the `Npc` entry written by `update_summary`:
`100 - 100*np.nansum(0*dat[colname] + 1)/self.n_records`. -/
def npc (cfg : Config) (c : Col) : ℚ :=
  100 - 100 * (nonMissingCount c : ℚ) / (n_records cfg : ℚ)

/-- CLAIM C5 (amended): `Npc` is exactly
`100 - 100*(non-missing count)/n_records`; it equals 100 iff every value
is missing, and — provided the column has exactly `n_records` entries — it
equals 0 iff no value is missing.  (The length proviso is forced: the
merged frame can carry more than `n_records` rows, see C1.) -/
theorem c5_npc_characterization (cfg : Config) (c : Col)
    (h : 0 < n_records cfg) :
    npc cfg c = 100 - 100 * (nonMissingCount c : ℚ) / (n_records cfg : ℚ) ∧
    (npc cfg c = 100 ↔ ∀ v ∈ c, v = Val.nan) ∧
    (c.length = n_records cfg →
      (npc cfg c = 0 ↔ ∀ v ∈ c, v ≠ Val.nan)) := by
  have hn : (n_records cfg : ℚ) ≠ 0 := by
    exact_mod_cast Nat.pos_iff_ne_zero.mp h
  have key100 : npc cfg c = 100 ↔ nonMissingCount c = 0 := by
    unfold npc
    rw [sub_eq_self, div_eq_zero_iff]
    constructor
    · rintro (h0 | h0)
      · rcases mul_eq_zero.mp h0 with h' | h'
        · norm_num at h'
        · exact_mod_cast h'
      · exact absurd h0 hn
    · intro h0
      left
      rw [h0]
      norm_num
  have key0 : npc cfg c = 0 ↔ nonMissingCount c = n_records cfg := by
    unfold npc
    rw [sub_eq_zero, eq_div_iff hn]
    constructor
    · intro h'
      have h'' := mul_left_cancel₀ (by norm_num : (100 : ℚ) ≠ 0) h'.symm
      exact_mod_cast h''
    · intro h'
      rw [h']
  have allnan : nonMissingCount c = 0 ↔ ∀ v ∈ c, v = Val.nan := by
    unfold nonMissingCount
    rw [List.countP_eq_zero]
    constructor
    · intro hall v hv
      have := hall v hv
      simpa using this
    · intro hall v hv
      simp [hall v hv]
  refine ⟨rfl, key100.trans allnan, ?_⟩
  intro hlen
  have nonenan : nonMissingCount c = n_records cfg ↔ ∀ v ∈ c, v ≠ Val.nan := by
    unfold nonMissingCount
    rw [← hlen, List.countP_eq_length]
    constructor
    · intro hall v hv
      have := hall v hv
      simpa using this
    · intro hall v hv
      simp [hall v hv]
  exact key0.trans nonenan

/-- Witness for C5's amended characterization: a single all-missing column
under the 1-minute, 1 Hz configuration. -/
theorem c5_npc_characterization_witness :
    0 < n_records ⟨1, 1⟩ ∧
      (npc ⟨1, 1⟩ [Val.nan] = 100 ↔ ∀ v ∈ [Val.nan], v = Val.nan) :=
  ⟨by decide, (c5_npc_characterization ⟨1, 1⟩ [Val.nan] (by decide)).2.1⟩

/-- Counterexample for C5 as stated: a column with 61 entries and none
missing (as produced by a merged frame with one extra row, see C1) gets
`Npc ≠ 0` under the 1-minute, 1 Hz configuration (`n_records = 60`), so
`Npc == 0` is not equivalent to "none missing". -/
theorem c5_npc_zero_cex :
    (∀ v ∈ (List.replicate 61 (Val.num 1) : Col), v ≠ Val.nan) ∧
      npc ⟨1, 1⟩ (List.replicate 61 (Val.num 1)) ≠ 0 := by
  refine ⟨by decide, ?_⟩
  have hcnt : nonMissingCount (List.replicate 61 (Val.num 1)) = 61 := by decide
  unfold npc
  rw [hcnt]
  norm_num [n_records]

/-! ### Interval Assembler: per-file metadata records -/

/-- Column names of the per-site metadata table created by
`metadata_template`: four identifier columns plus eight TOA5 header
fields — twelve columns in total. -/
def metadataColumns : List String :=
  ["output_timestamp", "output_name", "input_timestamp", "input_name",
   "Encoding", "Station_name", "Datalogger_model",
   "Datalogger_serial_number", "Datalogger_OS_version",
   "Datalogger_program_name", "Datalogger_program_signature", "Table_name"]

/-- Models `metadata_template`: a table of `n_files` rows, each twelve
`'none'` entries. -/
def metadata_template (n_files : Nat) : List (List Val) :=
  List.replicate n_files (List.replicate 12 (Val.str "none"))

/-- Models `update_metadata`: build the row
`[dfts, desired_fn, ts, fn] + f.readline()[1:-1].split('","')` from the
raw file's first line (`firstLine` includes its trailing newline, so
`[1:-1]` strips the opening quote and the newline, leaving the closing
quote on the last field), write it at row `i` (`ifile[site]`) with
`.iloc`, and return the table together with the incremented counter.
`.iloc` raises `IndexError` out of range and `ValueError` when the row
length differs from the table's twelve columns. -/
def update_metadata (dfts : Nat) (desired_fn : String) (ts : Nat)
    (fn : String) (firstLine : String) (table : List (List Val)) (i : Nat) :
    Except PyErr (List (List Val) × Nat) :=
  let fields := pySplit "\",\"" (pyStrSlice1m1 firstLine)
  let row := [Val.tstamp dfts, Val.str desired_fn, Val.tstamp ts, Val.str fn]
      ++ fields.map Val.str
  if i < table.length then
    if row.length = metadataColumns.length then
      .ok (table.set i row, i + 1)
    else .error .valueError
  else .error .indexError

/-- CLAIM C9 (amended): one metadata record per consumed file is written
at the next free row `i`, consisting of the output interval timestamp,
output path, file timestamp, file path, followed by the EIGHT fields split
from the raw file's first header line (the code's twelve-column table
leaves room for eight parsed fields, not twelve). -/
theorem c9_metadata_record (dfts : Nat) (fnOut : String) (ts : Nat)
    (fn : String) (line : String) (table : List (List Val)) (i : Nat)
    (hrow : i < table.length)
    (hfields : (pySplit "\",\"" (pyStrSlice1m1 line)).length = 8) :
    update_metadata dfts fnOut ts fn line table i =
      .ok (table.set i
        ([Val.tstamp dfts, Val.str fnOut, Val.tstamp ts, Val.str fn] ++
          (pySplit "\",\"" (pyStrSlice1m1 line)).map Val.str), i + 1) := by
  unfold update_metadata
  rw [if_pos hrow, if_pos]
  simp [hfields, metadataColumns]

/-- Witness for C9: a genuine eight-field TOA5 first line
(`"TOA5","CPK","CR3000","1065","CR3000.Std.32","CPU:prog.CR3","1234","ts_data"`
plus newline) is recorded at row 0 of a three-row table. -/
theorem c9_metadata_record_witness :
    update_metadata 1000 "out.csv" 900 "in.dat"
        "\"TOA5\",\"CPK\",\"CR3000\",\"1065\",\"CR3000.Std.32\",\"CPU:prog.CR3\",\"1234\",\"ts_data\"\n"
        (metadata_template 3) 0 =
      .ok ((metadata_template 3).set 0
        ([Val.tstamp 1000, Val.str "out.csv", Val.tstamp 900,
          Val.str "in.dat"] ++
          (pySplit "\",\""
            (pyStrSlice1m1
              "\"TOA5\",\"CPK\",\"CR3000\",\"1065\",\"CR3000.Std.32\",\"CPU:prog.CR3\",\"1234\",\"ts_data\"\n")).map
            Val.str), 1) :=
  c9_metadata_record 1000 "out.csv" 900 "in.dat" _ (metadata_template 3) 0
    (by decide) (by decide)

/-- Counterexample for C9 as stated: a first header line with twelve
quoted fields (as the claim describes) produces a sixteen-element row that
cannot be written into the twelve-column metadata table — `update_metadata`
raises `ValueError` and records nothing. -/
theorem c9_twelve_fields_cex :
    update_metadata 0 "out.csv" 0 "in.dat"
        "\"f01\",\"f02\",\"f03\",\"f04\",\"f05\",\"f06\",\"f07\",\"f08\",\"f09\",\"f10\",\"f11\",\"f12\"\n"
        (metadata_template 1) 0 = .error PyErr.valueError := by
  decide

/-! ### Multi-Site Merger: emitted output columns -/

/-- Value columns one site contributes to the merged frame: the canonical
header after `set_index('TIMESTAMP')` and the `RECORD` drop performed in
`process_file`/`process_interval`. -/
def siteValueCols (s : Site) : List String :=
  ((finalHeader s).filter (fun c => c != "TIMESTAMP")).filter
    (fun c => c != "RECORD")

/-- Columns of the merged interval frame `dat`, in site declaration
order (the merge appends each site's columns on the right). -/
def mergedColumns (sites : List Site) : List String :=
  sites.flatMap siteValueCols

/-- Columns actually written by `process_interval`: `dat[dat.columns[1:]]`
slices off the first merged column before the PyArrow write. -/
def emittedColumns (sites : List Site) : List String :=
  (mergedColumns sites).drop 1

/-- Modelled from the spec (claim C7's description of the output table):
the union, in site declaration order, of canonical headers with only the
timestamp excluded. -/
def specEmittedColumns (sites : List Site) : List String :=
  sites.flatMap (fun s => (finalHeader s).filter (fun c => c != "TIMESTAMP"))

theorem mergedColumns_eq_filter (sites : List Site) :
    mergedColumns sites =
      (specEmittedColumns sites).filter (fun c => c != "RECORD") := by
  induction sites with
  | nil => rfl
  | cons s rest ih =>
      simp only [mergedColumns, specEmittedColumns, List.flatMap_cons,
        List.filter_append] at ih ⊢
      rw [ih]
      rfl

/-- CLAIM C7 (amended): the emitted value columns are the site-order union
of canonical headers with `TIMESTAMP` AND `RECORD` excluded, and with the
first column of that union additionally sliced off by `dat.columns[1:]`. -/
theorem c7_emitted_columns_amended (sites : List Site) :
    emittedColumns sites =
      ((specEmittedColumns sites).filter (fun c => c != "RECORD")).drop 1 := by
  rw [emittedColumns, mergedColumns_eq_filter]

/-- Counterexample for C7 as stated: for the single-site configuration
`[NF3]` the emitted column list is not the canonical header minus the
timestamp — `RECORD` is dropped and the first value column
(`Ux_CSAT3B_NF3`) is sliced off. -/
theorem c7_emitted_columns_cex :
    emittedColumns [Site.NF3] ≠ specEmittedColumns [Site.NF3] := by
  decide

/-! ### Diagnostic Decoder (`process_diagnostics`) -/

/-- Diagnostic-column patterns of the regex
`"DIAG_CSAT3_|DIAG_CSAT3B|DIAG_IRGA|DIAG_SON"`, in alternation order. -/
def diagPatterns : List String :=
  ["DIAG_CSAT3_", "DIAG_CSAT3B", "DIAG_IRGA", "DIAG_SON"]

/-- Leftmost regex match of the diagnostic pattern in a column name:
earliest starting position wins, and at equal positions the earlier
alternative wins. -/
def firstDiagIn : List Char → Option String
  | [] => none
  | c :: rest =>
      match diagPatterns.find? (fun p => p.toList.isPrefixOf (c :: rest)) with
      | some p => some p
      | none => firstDiagIn rest

/-- Instrument family derived from a matched pattern: strip the leading
`"DIAG_"` and rename the stray `"CSAT3_"` match to `"CSAT3"`. -/
def matchedInstr (colname : String) : Option String :=
  (firstDiagIn colname.toList).map (fun p =>
    let instr := String.mk (p.toList.drop 5)
    if instr = "CSAT3_" then "CSAT3" else instr)

/-- Models `process_diagnostics`.  When a column name matches the
diagnostic pattern the code executes `df.assign(**diag_dict[instr])`: the
`diag_dict` lambdas are applied by `assign` to the WHOLE frame, so
`x >> 12` raises `TypeError` for the CSAT3 family (frames do not support
`>>`) and `int(bool(x))` raises `ValueError` for the other families
(`bool` of a frame is ambiguous); should `assign` ever return, the
following bare statement `pd.DataFrame.assign()` (missing its `self`
argument) raises `TypeError` unconditionally.  The loop therefore raises
at its first matched column, and only a frame with no diagnostic column
passes through unchanged. -/
def process_diagnostics (df : Frame) (site : String) : Except PyErr Frame :=
  match (colNames df).findSome? matchedInstr with
  | some instr =>
      .error (if instr = "CSAT3" then PyErr.typeError else PyErr.valueError)
  | none => .ok df

/-- CLAIM C3 (code bug): on a frame containing a matched diagnostic
column (`DIAG_SON_SF4` here) `process_diagnostics` raises instead of
returning the frame extended with the family's flag column; a frame with
no diagnostic column is returned unchanged, so the failure is precisely
the matched case the claim describes.  The `site` argument is the one
`process_file` passes. -/
theorem c3_diagnostics_raise :
    process_diagnostics
        ⟨none, [("TIMESTAMP", [Val.tstamp 0]), ("DIAG_SON_SF4", [Val.num 0])]⟩
        "SF4" = .error PyErr.valueError ∧
    process_diagnostics ⟨none, [("Ux_SON_SF4", [Val.num 1])]⟩ "SF4" =
      .ok ⟨none, [("Ux_SON_SF4", [Val.num 1])]⟩ := by
  constructor
  · decide
  · decide

/-! ### Multi-Site Merger: row counts of the merged interval frame

`process_interval` builds the dense timestamp axis with
`pd.date_range(dfts + acq_period, periods=n_records, freq=acq_period)` and
then, per site, outer-joins the assembled frame onto it
(`dat.merge(rawdat, how='outer', left_index=True, right_index=True,
sort=True)`).  Only the row keys matter for row counts, so frames are
modelled here by their timestamp key lists (milliseconds). -/

/-- The dense timestamp axis of an output interval: `n_records` keys
starting one acquisition period after the interval start. -/
def denseAxis (cfg : Config) (dfts : Nat) : List Nat :=
  (List.range (n_records cfg)).map (fun i => dfts + (i + 1) * acqPeriod cfg)

/-- Insertion step of the sort performed by `sort=True`. -/
def insertSorted (a : Nat) : List Nat → List Nat
  | [] => [a]
  | b :: t => if a ≤ b then a :: b :: t else b :: insertSorted a t

/-- Sorts the merged key set, as `sort=True` does. -/
def sortNat (l : List Nat) : List Nat := l.foldr insertSorted []

/-- Key multiset of a pandas outer join on row keys: every key of either
side appears; a key occurring `cl` times on the left and `cr > 0` times on
the right produces `cl * cr` rows, and a one-sided key keeps its own
multiplicity. -/
def mergeOuterKeys (l r : List Nat) : List Nat :=
  (sortNat ((l ++ r).dedup)).flatMap (fun k =>
    List.replicate
      (if l.count k = 0 then r.count k
       else if r.count k = 0 then l.count k
       else l.count k * r.count k) k)

/-- Row keys of the merged interval frame: fold the per-site key lists
into the dense axis with outer joins, in site order. -/
def mergedKeys (cfg : Config) (dfts : Nat) (siteKeys : List (List Nat)) :
    List Nat :=
  siteKeys.foldl mergeOuterKeys (denseAxis cfg dfts)

/-- Row keys of the `make_empty` placeholder frame: interval start plus
one acquisition period, and 100 ms later (hard-coded `freq="100ms"`). -/
def makeEmptyKeys (cfg : Config) (dfts : Nat) : List Nat :=
  [dfts + acqPeriod cfg, dfts + acqPeriod cfg + 100]

theorem insertSorted_perm (a : Nat) (l : List Nat) :
    List.Perm (insertSorted a l) (a :: l) := by
  induction l with
  | nil => exact List.Perm.refl _
  | cons b t ih =>
      unfold insertSorted
      by_cases h : a ≤ b
      · rw [if_pos h]
      · rw [if_neg h]
        exact (List.Perm.cons b ih).trans (List.Perm.swap a b t)

theorem sortNat_perm (l : List Nat) : List.Perm (sortNat l) l := by
  induction l with
  | nil => exact List.Perm.refl _
  | cons a t ih =>
      exact (insertSorted_perm a (sortNat t)).trans (List.Perm.cons a ih)

theorem mergeOuterKeys_perm (l r : List Nat) (hl : l.Nodup) (hr : r.Nodup)
    (hsub : ∀ k ∈ r, k ∈ l) : List.Perm (mergeOuterKeys l r) l := by
  have hperm : List.Perm (sortNat ((l ++ r).dedup)) ((l ++ r).dedup) := sortNat_perm _
  have hmem : ∀ k, k ∈ sortNat ((l ++ r).dedup) ↔ k ∈ l := by
    intro k
    rw [hperm.mem_iff, List.mem_dedup, List.mem_append]
    exact ⟨fun h => h.elim id (fun h2 => hsub k h2), fun h => Or.inl h⟩
  have hone : ∀ k ∈ sortNat ((l ++ r).dedup),
      List.replicate
        (if l.count k = 0 then r.count k
         else if r.count k = 0 then l.count k
         else l.count k * r.count k) k = [k] := by
    intro k hk
    have hkl : k ∈ l := (hmem k).mp hk
    have hcl : l.count k = 1 := List.count_eq_one_of_mem hl hkl
    rw [hcl]
    by_cases hkr : k ∈ r
    · rw [List.count_eq_one_of_mem hr hkr]
      simp
    · rw [List.count_eq_zero.mpr hkr]
      simp
  have hflat : mergeOuterKeys l r = sortNat ((l ++ r).dedup) := by
    unfold mergeOuterKeys
    rw [List.flatMap_congr hone]
    exact List.flatMap_singleton' _
  have hd : List.Perm ((l ++ r).dedup) l := by
    rw [List.perm_iff_count]
    intro a
    rw [List.count_dedup]
    by_cases hal : a ∈ l
    · rw [if_pos (List.mem_append.mpr (Or.inl hal)),
        List.count_eq_one_of_mem hl hal]
    · rw [if_neg (fun hm => by
          rcases List.mem_append.mp hm with h | h
          · exact hal h
          · exact hal (hsub a h)),
        (List.count_eq_zero.mpr hal).symm]
  rw [hflat]
  exact hperm.trans hd

theorem denseAxis_nodup (cfg : Config) (dfts : Nat)
    (hp : 0 < acqPeriod cfg) : (denseAxis cfg dfts).Nodup := by
  unfold denseAxis
  refine List.Nodup.map ?_ (List.nodup_range _)
  intro a b hab
  have h1 : (a + 1) * acqPeriod cfg = (b + 1) * acqPeriod cfg :=
    Nat.add_left_cancel hab
  have h2 : a + 1 = b + 1 := Nat.eq_of_mul_eq_mul_right hp h1
  omega

/-- CLAIM C1 (amended): the merged interval frame has exactly `n_records`
rows PROVIDED every site frame's timestamps are duplicate-free and lie on
the dense axis; the outer join makes any other timestamp add a row (see
the counterexample). -/
theorem c1_merged_rowcount (cfg : Config) (dfts : Nat)
    (siteKeys : List (List Nat)) (hp : 0 < acqPeriod cfg)
    (hk : ∀ ks ∈ siteKeys, ks.Nodup ∧ ∀ k ∈ ks, k ∈ denseAxis cfg dfts) :
    (mergedKeys cfg dfts siteKeys).length = n_records cfg := by
  have haxis : (denseAxis cfg dfts).Nodup := denseAxis_nodup cfg dfts hp
  have main : ∀ (sks : List (List Nat)) (acc : List Nat), acc.Nodup →
      List.Perm acc (denseAxis cfg dfts) →
      (∀ ks ∈ sks, ks.Nodup ∧ ∀ k ∈ ks, k ∈ denseAxis cfg dfts) →
      List.Perm (sks.foldl mergeOuterKeys acc) (denseAxis cfg dfts) := by
    intro sks
    induction sks with
    | nil => intro acc _ hperm _; simpa using hperm
    | cons ks rest ih =>
        intro acc hnd hperm hks
        have h1 := hks ks (List.mem_cons_self _ _)
        have hsub : ∀ k ∈ ks, k ∈ acc := fun k hk' =>
          hperm.mem_iff.mpr (h1.2 k hk')
        have hm := mergeOuterKeys_perm acc ks hnd h1.1 hsub
        show List.Perm (rest.foldl mergeOuterKeys (mergeOuterKeys acc ks)) _
        exact ih (mergeOuterKeys acc ks) (hm.nodup_iff.mpr hnd)
          (hm.trans hperm) (fun ks' h' => hks ks' (List.mem_cons_of_mem _ h'))
  have hfin := main siteKeys (denseAxis cfg dfts) haxis (List.Perm.refl _) hk
  rw [mergedKeys, hfin.length_eq]
  simp [denseAxis]

/-- Witness for C1's amended row-count invariant: one site contributing
two on-axis keys under the 1-minute, 1 Hz configuration. -/
theorem c1_merged_rowcount_witness :
    0 < acqPeriod ⟨1, 1⟩ ∧
      (mergedKeys ⟨1, 1⟩ 0 [[1000, 2000]]).length = n_records ⟨1, 1⟩ :=
  ⟨by decide,
   c1_merged_rowcount ⟨1, 1⟩ 0 [[1000, 2000]] (by decide) (by decide)⟩

/-- Counterexample for C1 as stated: under the 1-minute, 1 Hz
configuration (`n_records = 60`, acquisition period 1000 ms) the zero-files
placeholder itself has its second row at +100 ms, which is off the dense
axis, so the outer join yields 61 rows, not `n_records`. -/
theorem c1_merged_rowcount_cex :
    (mergedKeys ⟨1, 1⟩ 0 [makeEmptyKeys ⟨1, 1⟩ 0]).length ≠
      n_records ⟨1, 1⟩ := by
  decide

/-! ### Schema Harmonizer: column-list behaviour of `reorder_headers` -/

/-- A frame with the given distinct column names and a column of values
per name; `mkFrame H v` with `H` a canonical header is the generic
"already harmonized" frame. -/
def mkFrame (names : List String) (v : String → Col) : Frame :=
  ⟨none, names.map (fun n => (n, v n))⟩

theorem colNames_mkFrame (names : List String) (v : String → Col) :
    colNames (mkFrame names v) = names := by
  unfold colNames mkFrame
  rw [List.map_map]
  exact List.map_id'' (fun _ => rfl) names

theorem colNames_reindex (df : Frame) (names : List String) :
    colNames (reindexColsU df names) = names := by
  unfold colNames reindexColsU
  rw [List.map_map]
  exact List.map_id'' (fun _ => rfl) names

theorem colNames_rename (df : Frame) (m : List (String × String)) :
    colNames (renameCols df m) = (colNames df).map (applyRename m) := by
  unfold colNames renameCols
  rw [List.map_map, List.map_map]
  rfl

theorem reorder_headers_normal (cfg : Config) (site : Site) (fts : Nat)
    (df : Frame) (r : Rule)
    (hr : ruleFor site (dateOf fts) = .normal r)
    (hnd : (colNames df).Nodup) :
    reorder_headers cfg site fts df =
      selectCols
        (renameCols (reindexColsU df (colNames df ++ r.colsToAdd))
          r.renameMap)
        (finalHeader site) := by
  have hre : reindexCols df (colNames df ++ r.colsToAdd) =
      .ok (reindexColsU df (colNames df ++ r.colsToAdd)) := by
    unfold reindexCols
    rw [if_pos hnd]
  simp only [reorder_headers, hr, hre]

theorem reorder_headers_dup_axis (cfg : Config) (site : Site) (fts : Nat)
    (df : Frame) (r : Rule)
    (hr : ruleFor site (dateOf fts) = .normal r)
    (hnd : ¬(colNames df).Nodup) :
    reorder_headers cfg site fts df = .error PyErr.valueError := by
  have hre : reindexCols df (colNames df ++ r.colsToAdd) =
      .error PyErr.valueError := by
    unfold reindexCols
    rw [if_neg hnd]
  simp only [reorder_headers, hr, hre]

theorem allPresent_iff (df : Frame) (names : List String) :
    allPresent df names = true ↔ ∀ n ∈ names, n ∈ colNames df := by
  unfold allPresent colNames
  rw [List.all_eq_true]
  constructor
  · intro h n hn
    have h2 := h n hn
    rw [List.any_eq_true] at h2
    obtain ⟨pc, hpc, hbeq⟩ := h2
    exact List.mem_map.mpr ⟨pc, hpc, beq_iff_eq.mp hbeq⟩
  · intro h n hn
    obtain ⟨pc, hpc, he⟩ := List.mem_map.mp (h n hn)
    rw [List.any_eq_true]
    exact ⟨pc, hpc, by simp [he]⟩

theorem colNames_selected (cols : List (String × Col))
    (idx : Option (String × Col)) (H : List String) :
    colNames ⟨idx, H.flatMap (fun n => cols.filter (fun pc => pc.1 == n))⟩ =
      H.flatMap (fun n => (cols.map Prod.fst).filter (fun m => m == n)) := by
  unfold colNames
  rw [List.map_flatMap]
  exact List.flatMap_congr (fun n _ => by rw [List.filter_map]; rfl)

theorem flatMap_filter_eq_self_iff (L : List String) :
    ∀ (t : List String), t.Nodup →
      ((t.flatMap fun n => L.filter (fun m => m == n)) = t ↔
        ∀ n ∈ t, L.count n = 1) := by
  intro t
  induction t with
  | nil => intro _; simp
  | cons a t ih =>
      intro ht
      have hat : a ∉ t := (List.nodup_cons.mp ht).1
      have ht' : t.Nodup := (List.nodup_cons.mp ht).2
      rw [List.flatMap_cons, List.filter_beq]
      have hrest : ∀ m ∈ t.flatMap (fun n => L.filter (fun mm => mm == n)),
          m ∈ t := by
        intro m hm
        obtain ⟨n, hn, hmn⟩ := List.mem_flatMap.mp hm
        exact (beq_iff_eq.mp (List.mem_filter.mp hmn).2) ▸ hn
      constructor
      · intro h
        cases hcount : L.count a with
        | zero =>
            rw [hcount, List.replicate_zero, List.nil_append] at h
            exact absurd (hrest a (h ▸ List.mem_cons_self a t)) hat
        | succ c =>
            cases c with
            | zero =>
                rw [hcount, List.replicate_succ, List.replicate_zero,
                  List.cons_append, List.nil_append] at h
                injection h with h1 h2
                intro n hn
                rcases List.mem_cons.mp hn with h3 | h3
                · rw [h3, hcount]
                · exact (ih ht').mp h2 n h3
            | succ c2 =>
                rw [hcount, List.replicate_succ, List.cons_append] at h
                injection h with h1 h2
                have : a ∈ t := by
                  rw [← h2]
                  exact List.mem_append.mpr
                    (Or.inl (List.mem_replicate.mpr ⟨Nat.succ_ne_zero _, rfl⟩))
                exact absurd this hat
      · intro hcnt
        have hca : L.count a = 1 := hcnt a (List.mem_cons_self a t)
        rw [hca, List.replicate_succ, List.replicate_zero, List.cons_append,
          List.nil_append,
          (ih ht').mpr (fun n hn => hcnt n (List.mem_cons_of_mem a hn))]

/-- CLAIM C2 (amended): for a date covered by a normal rule, an input
frame with repeated column labels makes the reindex step raise
`ValueError` ("cannot reindex from a duplicate axis"); for a
duplicate-free input, the Harmonizer's output column list equals the
site's canonical header exactly IF AND ONLY IF, after appending the
rule's add-columns and applying its renames, every canonical name occurs
exactly once among the column names.  When a canonical name is absent,
`df[new_order]` raises `KeyError` instead of inserting a sentinel column,
and a name occurring twice duplicates its column (columns outside the
canonical set are dropped in every case). -/
theorem c2_harmonizer_columns (cfg : Config) (site : Site) (fts : Nat)
    (df : Frame) (r : Rule)
    (hr : ruleFor site (dateOf fts) = .normal r) :
    (¬(colNames df).Nodup →
      reorder_headers cfg site fts df = .error PyErr.valueError) ∧
    ((colNames df).Nodup →
      ((∃ out, reorder_headers cfg site fts df = .ok out ∧
          colNames out = finalHeader site) ↔
        ∀ n ∈ finalHeader site,
          ((colNames df ++ r.colsToAdd).map
            (applyRename r.renameMap)).count n = 1)) := by
  have hH : (finalHeader site).Nodup := by cases site <;> decide
  constructor
  · intro hdup
    exact reorder_headers_dup_axis cfg site fts df r hr hdup
  · intro hnd
    rw [reorder_headers_normal cfg site fts df r hr hnd]
    set df2 := renameCols (reindexColsU df (colNames df ++ r.colsToAdd))
      r.renameMap with hdf2
    have hnames : colNames df2 =
        (colNames df ++ r.colsToAdd).map (applyRename r.renameMap) := by
      rw [hdf2, colNames_rename, colNames_reindex]
    by_cases hall : allPresent df2 (finalHeader site) = true
    · unfold selectCols
      rw [if_pos hall]
      have hsel := colNames_selected df2.cols df2.index (finalHeader site)
      constructor
      · rintro ⟨out, hout, hcols⟩
        rw [← Except.ok.inj hout] at hcols
        rw [hsel] at hcols
        rw [show df2.cols.map Prod.fst = colNames df2 from rfl, hnames]
          at hcols
        exact (flatMap_filter_eq_self_iff _ (finalHeader site) hH).mp hcols
      · intro hcnt
        refine ⟨_, rfl, ?_⟩
        rw [hsel, show df2.cols.map Prod.fst = colNames df2 from rfl, hnames]
        exact (flatMap_filter_eq_self_iff _ (finalHeader site) hH).mpr hcnt
    · unfold selectCols
      rw [if_neg hall]
      constructor
      · rintro ⟨out, hout, _⟩
        exact Except.noConfusion hout
      · intro hcnt
        exfalso
        apply hall
        rw [allPresent_iff]
        intro n hn
        have h1 := hcnt n hn
        rw [hnames]
        by_contra hnot
        rw [List.count_eq_zero.mpr hnot] at h1
        exact absurd h1 (by decide)

/-- Witness for C2's amended claim: the genuine SF4 raw schema (before
harmonization) is duplicate-free and satisfies the count condition, so
harmonization returns exactly the canonical SF4 header; a frame carrying
a duplicated label raises `ValueError` at the reindex step. -/
theorem c2_harmonizer_columns_witness :
    (∃ out,
        reorder_headers ⟨5, 10⟩ Site.SF4 0
            (mkFrame
              ["TIMESTAMP", "RECORD", "Ux", "Uy", "Uz", "Ts", "diag_sonic",
               "CO2", "H2O", "diag_irga", "cell_tmpr", "cell_press"]
              (fun _ => [Val.num 0])) = .ok out ∧
          colNames out = finalHeader Site.SF4) ∧
    reorder_headers ⟨5, 10⟩ Site.SF4 0
        ⟨none, [("junk", [Val.num 1]), ("junk", [Val.num 2])]⟩ =
      .error PyErr.valueError :=
  ⟨((c2_harmonizer_columns ⟨5, 10⟩ Site.SF4 0
      (mkFrame
        ["TIMESTAMP", "RECORD", "Ux", "Uy", "Uz", "Ts", "diag_sonic",
         "CO2", "H2O", "diag_irga", "cell_tmpr", "cell_press"]
        (fun _ => [Val.num 0])) sf4rule (by decide)).2 (by decide)).mpr
      (by decide),
   (c2_harmonizer_columns ⟨5, 10⟩ Site.SF4 0
      ⟨none, [("junk", [Val.num 1]), ("junk", [Val.num 2])]⟩ sf4rule
      (by decide)).1 (by decide)⟩

/-- Counterexample for C2 as stated: an input frame with no columns at
all makes `df[new_order]` raise `KeyError`; no canonically-shaped frame is
returned, and no missing canonical column is sentinel-filled. -/
theorem c2_harmonizer_columns_cex :
    reorder_headers ⟨5, 10⟩ Site.NF3 0 ⟨none, []⟩ =
      .error PyErr.keyError := by
  decide

/-! ### Schema Harmonizer: re-applying to an already-canonical frame -/

theorem lookupCol_mkFrame (names : List String) (v : String → Col)
    (hnd : names.Nodup) (n : String) (hn : n ∈ names) :
    lookupCol ((mkFrame names v).cols) n = some (v n) := by
  induction names with
  | nil => cases hn
  | cons a t ih =>
      rcases List.mem_cons.mp hn with rfl | hn'
      · have hstep : List.find? (fun pc : String × Col => pc.1 == n)
            ((n, v n) :: List.map (fun m => (m, v m)) t) = some (n, v n) :=
          List.find?_cons_of_pos _ (by simp)
        unfold lookupCol mkFrame
        rw [List.map_cons, hstep]
        rfl
      · have hstep : List.find? (fun pc : String × Col => pc.1 == n)
            ((a, v a) :: List.map (fun m => (m, v m)) t) =
            List.find? (fun pc : String × Col => pc.1 == n)
              (List.map (fun m => (m, v m)) t) :=
          List.find?_cons_of_neg _ (by
            simp only [beq_iff_eq]
            exact fun he => (List.nodup_cons.mp hnd).1 (he ▸ hn'))
        unfold lookupCol mkFrame
        rw [List.map_cons, hstep]
        exact ih (List.nodup_cons.mp hnd).2 hn'

/-- Applying a normal rule to a frame that is already exactly in the
site's canonical header: reindexing duplicates every add-column (they are
all already present), the renames do not fire, and `df[new_order]`
returns both copies of each duplicated label. -/
theorem reorder_headers_on_canonical (cfg : Config) (site : Site)
    (fts : Nat) (r : Rule) (v : String → Col)
    (hr : ruleFor site (dateOf fts) = .normal r)
    (hH : (finalHeader site).Nodup)
    (hA : r.colsToAdd.Nodup)
    (hsub : ∀ n ∈ r.colsToAdd, n ∈ finalHeader site)
    (hkeys : ∀ p ∈ r.renameMap, ∀ n ∈ finalHeader site, p.1 ≠ n) :
    reorder_headers cfg site fts (mkFrame (finalHeader site) v) =
      .ok ⟨none, (finalHeader site).flatMap (fun n =>
        if n ∈ r.colsToAdd then [(n, v n), (n, v n)]
        else [(n, v n)])⟩ := by
  rw [reorder_headers_normal cfg site fts _ r hr
    (by rw [colNames_mkFrame]; exact hH), colNames_mkFrame]
  have hmemHA : ∀ n ∈ finalHeader site ++ r.colsToAdd, n ∈ finalHeader site :=
    fun n hn => (List.mem_append.mp hn).elim id (hsub n)
  have hdf1 : (reindexColsU (mkFrame (finalHeader site) v)
      (finalHeader site ++ r.colsToAdd)).cols =
      (finalHeader site ++ r.colsToAdd).map (fun n => (n, v n)) := by
    unfold reindexColsU
    apply List.map_congr_left
    intro n hn
    unfold reindexedCol
    rw [lookupCol_mkFrame (finalHeader site) v hH n (hmemHA n hn)]
    rfl
  have hdf2 : (renameCols (reindexColsU (mkFrame (finalHeader site) v)
      (finalHeader site ++ r.colsToAdd)) r.renameMap).cols =
      (finalHeader site ++ r.colsToAdd).map (fun n => (n, v n)) := by
    unfold renameCols
    rw [hdf1, List.map_map]
    apply List.map_congr_left
    intro n hn
    show (applyRename r.renameMap n, v n) = (n, v n)
    have hnone : r.renameMap.find? (fun p => p.1 == n) = none :=
      List.find?_eq_none.mpr (fun p hp => by
        simp only [beq_iff_eq]
        exact hkeys p hp n (hmemHA n hn))
    unfold applyRename
    rw [hnone]
  have hcoln : colNames (renameCols (reindexColsU
      (mkFrame (finalHeader site) v)
      (finalHeader site ++ r.colsToAdd)) r.renameMap) =
      finalHeader site ++ r.colsToAdd := by
    unfold colNames
    rw [hdf2, List.map_map]
    exact List.map_id'' (fun _ => rfl) _
  have hpres : allPresent (renameCols (reindexColsU
      (mkFrame (finalHeader site) v)
      (finalHeader site ++ r.colsToAdd)) r.renameMap)
      (finalHeader site) = true := by
    rw [allPresent_iff]
    intro n hn
    rw [hcoln]
    exact List.mem_append.mpr (Or.inl hn)
  unfold selectCols
  rw [if_pos hpres]
  have hidx : (renameCols (reindexColsU (mkFrame (finalHeader site) v)
      (finalHeader site ++ r.colsToAdd)) r.renameMap).index = none := rfl
  rw [hidx]
  have hcols : (finalHeader site).flatMap (fun n =>
      (renameCols (reindexColsU (mkFrame (finalHeader site) v)
        (finalHeader site ++ r.colsToAdd))
          r.renameMap).cols.filter (fun pc => pc.1 == n)) =
      (finalHeader site).flatMap (fun n =>
        if n ∈ r.colsToAdd then [(n, v n), (n, v n)] else [(n, v n)]) := by
    apply List.flatMap_congr
    intro n hn
    rw [hdf2, List.filter_map]
    show (((finalHeader site ++ r.colsToAdd).filter
      (fun m => m == n)).map (fun m => (m, v m))) = _
    rw [List.filter_beq, List.count_append,
      List.count_eq_one_of_mem hH hn]
    by_cases hnA : n ∈ r.colsToAdd
    · rw [List.count_eq_one_of_mem hA hnA, if_pos hnA]
      rfl
    · rw [List.count_eq_zero.mpr hnA, if_neg hnA]
      rfl
  rw [hcols]

theorem colNames_flatMap_pairs (H A : List String) (v : String → Col) :
    colNames ⟨none, H.flatMap (fun n =>
        if n ∈ A then [(n, v n), (n, v n)] else [(n, v n)])⟩ =
      H.flatMap (fun n => if n ∈ A then [n, n] else [n]) := by
  unfold colNames
  rw [List.map_flatMap]
  apply List.flatMap_congr
  intro n _
  by_cases h : n ∈ A
  · rw [if_pos h, if_pos h]
    rfl
  · rw [if_neg h, if_neg h]
    rfl

theorem c8_case (cfg : Config) (site : Site) (fts : Nat) (r : Rule)
    (v : String → Col)
    (hr : ruleFor site (dateOf fts) = .normal r)
    (hH : (finalHeader site).Nodup)
    (hA : r.colsToAdd.Nodup)
    (hsub : ∀ n ∈ r.colsToAdd, n ∈ finalHeader site)
    (hkeys : ∀ p ∈ r.renameMap, ∀ n ∈ finalHeader site, p.1 ≠ n)
    (hne : ((finalHeader site).flatMap (fun n =>
        if n ∈ r.colsToAdd then [n, n] else [n])) ≠ finalHeader site) :
    ∃ out, reorder_headers cfg site fts
        (mkFrame (finalHeader site) v) = .ok out ∧
      colNames out = (finalHeader site).flatMap (fun n =>
        if n ∈ r.colsToAdd then [n, n] else [n]) ∧
      out ≠ mkFrame (finalHeader site) v := by
  refine ⟨_, reorder_headers_on_canonical cfg site fts r v hr hH hA hsub hkeys,
    colNames_flatMap_pairs _ _ v, ?_⟩
  intro heq
  apply hne
  have h2 := congrArg colNames heq
  rw [colNames_flatMap_pairs, colNames_mkFrame] at h2
  exact h2

/-- CLAIM C8 (amended): harmonization is NOT idempotent.  For every site,
every date covered by a normal rule, and every frame already exactly in
the canonical header, re-applying `reorder_headers` duplicates each of the
rule's add-columns (the output column list is the canonical header with
every add-column listed twice), so the output never equals the input. -/
theorem c8_reapply_duplicates (cfg : Config) (site : Site) (fts : Nat)
    (r : Rule) (v : String → Col)
    (hr : ruleFor site (dateOf fts) = .normal r) :
    ∃ out, reorder_headers cfg site fts
        (mkFrame (finalHeader site) v) = .ok out ∧
      colNames out = (finalHeader site).flatMap (fun n =>
        if n ∈ r.colsToAdd then [n, n] else [n]) ∧
      out ≠ mkFrame (finalHeader site) v := by
  cases site with
  | NF17 =>
      by_cases h1 : dateOf fts < day20190519
      · have hre : r = nf17pre := by
          simp only [ruleFor] at hr
          rw [if_pos h1] at hr
          injection hr with h
          exact h.symm
        subst hre
        exact c8_case _ _ _ _ v hr (by decide) (by decide) (by decide)
          (by decide) (by decide)
      · by_cases h2 : dateOf fts > day20190519
        · have hre : r = nf17post := by
            simp only [ruleFor] at hr
            rw [if_neg h1, if_pos h2] at hr
            injection hr with h
            exact h.symm
          subst hre
          exact c8_case _ _ _ _ v hr (by decide) (by decide) (by decide)
            (by decide) (by decide)
        · exfalso
          simp only [ruleFor] at hr
          rw [if_neg h1, if_neg h2, if_pos (by omega)] at hr
          exact RuleResult.noConfusion hr
  | NF3 =>
      by_cases h1 : dateOf fts < day20190519
      · have hre : r = nf3pre := by
          simp only [ruleFor] at hr
          rw [if_pos h1] at hr
          injection hr with h
          exact h.symm
        subst hre
        exact c8_case _ _ _ _ v hr (by decide) (by decide) (by decide)
          (by decide) (by decide)
      · by_cases h2 : dateOf fts > day20190519
        · have hre : r = nf3post := by
            simp only [ruleFor] at hr
            rw [if_neg h1, if_pos h2] at hr
            injection hr with h
            exact h.symm
          subst hre
          exact c8_case _ _ _ _ v hr (by decide) (by decide) (by decide)
            (by decide) (by decide)
        · exfalso
          simp only [ruleFor] at hr
          rw [if_neg h1, if_neg h2, if_pos (by omega)] at hr
          exact RuleResult.noConfusion hr
  | SF4 =>
      by_cases h1 : dateOf fts < day21001119
      · have hre : r = sf4rule := by
          simp only [ruleFor] at hr
          rw [if_pos h1] at hr
          injection hr with h
          exact h.symm
        subst hre
        exact c8_case _ _ _ _ v hr (by decide) (by decide) (by decide)
          (by decide) (by decide)
      · exfalso
        simp only [ruleFor] at hr
        rw [if_neg h1] at hr
        exact RuleResult.noConfusion hr
  | SF7 =>
      by_cases h1 : dateOf fts < day20190519
      · have hre : r = sf7pre := by
          simp only [ruleFor] at hr
          rw [if_pos h1] at hr
          injection hr with h
          exact h.symm
        subst hre
        exact c8_case _ _ _ _ v hr (by decide) (by decide) (by decide)
          (by decide) (by decide)
      · by_cases h2 : dateOf fts > day20190519
        · have hre : r = sf7post := by
            simp only [ruleFor] at hr
            rw [if_neg h1, if_pos h2] at hr
            injection hr with h
            exact h.symm
          subst hre
          exact c8_case _ _ _ _ v hr (by decide) (by decide) (by decide)
            (by decide) (by decide)
        · exfalso
          simp only [ruleFor] at hr
          rw [if_neg h1, if_neg h2, if_pos (by omega)] at hr
          exact RuleResult.noConfusion hr
  | UF3 =>
      by_cases h1 : dateOf fts > day20190213
      · have hre : r = uf3rule := by
          simp only [ruleFor] at hr
          rw [if_pos h1] at hr
          injection hr with h
          exact h.symm
        subst hre
        exact c8_case _ _ _ _ v hr (by decide) (by decide) (by decide)
          (by decide) (by decide)
      · exfalso
        simp only [ruleFor] at hr
        rw [if_neg h1] at hr
        exact RuleResult.noConfusion hr

/-- Witness for C8's amended statement at a concrete canonical NF3 frame
under the pre-2019 rule. -/
theorem c8_reapply_duplicates_witness :
    ∃ out, reorder_headers ⟨5, 10⟩ Site.NF3 0
        (mkFrame (finalHeader Site.NF3) (fun _ => [Val.num 2])) = .ok out ∧
      colNames out = (finalHeader Site.NF3).flatMap (fun n =>
        if n ∈ nf3pre.colsToAdd then [n, n] else [n]) ∧
      out ≠ mkFrame (finalHeader Site.NF3) (fun _ => [Val.num 2]) :=
  c8_reapply_duplicates ⟨5, 10⟩ Site.NF3 0 nf3pre (fun _ => [Val.num 2])
    (by decide)

/-- Counterexample for C8 as stated: harmonizing an already-canonical SF4
frame is not a no-op — `flag_SON_SF4` gets duplicated. -/
theorem c8_idempotence_cex :
    reorder_headers ⟨5, 10⟩ Site.SF4 0
        (mkFrame (finalHeader Site.SF4) (fun _ => [Val.nan])) ≠
      .ok (mkFrame (finalHeader Site.SF4) (fun _ => [Val.nan])) := by
  decide

end ChimneyPark
